import Mathlib

/-!
Verification of the deterministic-llm-service reliability pipeline.

The TypeScript source is embedded shallowly: machine numbers that only ever
hold timestamps or counters are `Nat`/`Int`, millisecond delays and the
backoff factor are `ℚ`, JavaScript `Map`s are association lists looked up by
first matching key, and promise settlement is made explicit (an invocation
count, the ordered list of backoff sleeps, and a `Settled` outcome).
-/

/-- Message role, from `Message` in the provider base types. -/
inductive Role : Type where
  | system : Role
  | user : Role
  | assistant : Role
deriving DecidableEq, Repr

/-- A chat message, from the `Message` interface. -/
structure Message : Type where
  role : Role
  content : String
deriving DecidableEq, Repr

/-- The `ChatRequest` interface of the provider base types. -/
structure ChatRequest : Type where
  model : String
  messages : List Message
  temperature : Option ℚ := none
  maxTokens : Option Nat := none
  timeout : Option Nat := none
deriving DecidableEq, Repr

/-- Token usage, from the `Usage` interface. -/
structure Usage : Type where
  promptTokens : Nat
  completionTokens : Nat
  totalTokens : Nat
deriving DecidableEq, Repr

/-- Finish reason of a chat completion. -/
inductive FinishReason : Type where
  | stop : FinishReason
  | length : FinishReason
  | content_filter : FinishReason
deriving DecidableEq, Repr

/-- The `ChatResponse` interface of the provider base types. -/
structure ChatResponse : Type where
  id : String
  content : String
  model : String
  finishReason : FinishReason
  usage : Usage
deriving DecidableEq, Repr

/-- The `ProviderResult` tagged union: `{success:true,data}` or
`{success:false,error,retryable}`.  Errors are carried by message text. -/
inductive ProviderResult : Type where
  | ok : ChatResponse → ProviderResult
  | err : String → Bool → ProviderResult
deriving DecidableEq, Repr

/-- A JavaScript thrown value as the retry driver can observe it: either an
`Error` carrying a message, or the value `undefined` (the uninitialized
`lastError`). -/
inductive JsError : Type where
  | error : String → JsError
  | undef : JsError
deriving DecidableEq, Repr

/-- Outcome of one invocation of the wrapped function `fn`: the promise
fulfills with a value or rejects with an `Error` whose message is given. -/
inductive FnResult (T : Type) : Type where
  | ok : T → FnResult T
  | exn : String → FnResult T
deriving DecidableEq, Repr

/-- Settlement of the promise returned by `retryWithBackoff`: resolved with a
value, or rejected with a thrown JavaScript value. -/
inductive Settled (T : Type) : Type where
  | value : T → Settled T
  | thrown : JsError → Settled T
deriving DecidableEq, Repr

/-- `Math.min`, written as an executable conditional. -/
def jsMin (a b : ℚ) : ℚ := if a ≤ b then a else b

theorem jsMin_eq_min (a b : ℚ) : jsMin a b = min a b := by
  simp [jsMin, min_def]

/-- The `RetryOptions` interface of `retry.ts`.  `maxAttempts` is an `Int`
because the source never checks it is positive; delays and factor are `ℚ`. -/
structure RetryOptions : Type where
  maxAttempts : Int
  initialDelay : ℚ
  maxDelay : ℚ
  factor : ℚ
deriving DecidableEq, Repr

/-- Observable trace of one `retryWithBackoff` run: how many times `fn` was
invoked, the backoff sleeps in order, and the final settlement. -/
structure RetryTrace (T : Type) : Type where
  calls : Nat
  sleeps : List ℚ
  outcome : Settled T
deriving DecidableEq, Repr

/-- The `for (let attempt = 1; attempt <= maxAttempts; ...)` loop of
`retryWithBackoff` in `retry.ts`, recursing on the number of remaining
iterations.  On a throw at `attempt === maxAttempts` the wrapped
`Max retry attempts` error is raised; otherwise the driver sleeps `delay`
and continues with `delay = min(delay * factor, maxDelay)`.  If the loop
body never runs the trailing `throw lastError` raises `undefined`. -/
def retryAux {T : Type} (fn : Nat → FnResult T) (maxA : Int) (factor maxD : ℚ) :
    Nat → Nat → ℚ → RetryTrace T
  | 0, _, _ => ⟨0, [], Settled.thrown JsError.undef⟩
  | remaining + 1, attempt, delay =>
    match fn attempt with
    | FnResult.ok v => ⟨1, [], Settled.value v⟩
    | FnResult.exn e =>
      if (attempt : Int) = maxA then
        ⟨1, [], Settled.thrown (JsError.error
          ("Max retry attempts (" ++ toString maxA ++ ") reached. Last error: " ++ e))⟩
      else
        let r := retryAux fn maxA factor maxD remaining (attempt + 1)
          (jsMin (delay * factor) maxD)
        ⟨r.calls + 1, delay :: r.sleeps, r.outcome⟩

/-- `retryWithBackoff(fn, options)` of `retry.ts`.  `fn attempt` is the
settlement of the promise returned by the `attempt`-th invocation
(1-indexed). -/
def retryWithBackoff {T : Type} (fn : Nat → FnResult T) (o : RetryOptions) : RetryTrace T :=
  retryAux fn o.maxAttempts o.factor o.maxDelay o.maxAttempts.toNat 1 o.initialDelay

/-- The backoff schedule of the loop: the value of `delay` before the j-th
sleep, starting from `initialDelay` and stepping by
`delay = min(delay * factor, maxDelay)`. -/
def backoffDelay (d0 f maxD : ℚ) : Nat → ℚ
  | 0 => d0
  | j + 1 => jsMin (backoffDelay d0 f maxD j * f) maxD

example :
    retryWithBackoff (fun _ => FnResult.exn "boom") ⟨3, 100, 5000, 2⟩ =
      (⟨3, [100, 200],
        Settled.thrown (JsError.error ("Max retry attempts (3) reached. Last error: boom"))⟩ :
        RetryTrace Nat) := by
  norm_num [retryWithBackoff, retryAux, jsMin]
  rfl

example :
    retryWithBackoff (fun i => if i = 2 then FnResult.ok 7 else FnResult.exn "x")
      ⟨3, 100, 5000, 2⟩ = (⟨2, [100], Settled.value 7⟩ : RetryTrace Nat) := by
  decide

example :
    retryWithBackoff (fun _ => FnResult.exn "x") ⟨2, 10000, 5000, 2⟩ =
      (⟨2, [10000],
        Settled.thrown (JsError.error ("Max retry attempts (2) reached. Last error: x"))⟩ :
        RetryTrace Nat) := by
  decide

/-- `LLMService.chat` of `llm-service.ts`: the breaker-protected call is
awaited inside `retryWithBackoff` with the fixed options
`{maxAttempts:3, initialDelay:100, maxDelay:5000, factor:2}`.  `fire i` is
the `ProviderResult` the `i`-th `breaker.fire(request)` resolves with (the
provider adapters never reject, and the breaker's fallback resolves too).
After the retry driver settles, `if (!result.success) throw result.error`
else the data is returned. -/
def LLMService.chat (fire : Nat → ProviderResult) : RetryTrace ChatResponse :=
  let t := retryWithBackoff (fun i => FnResult.ok (fire i)) ⟨3, 100, 5000, 2⟩
  ⟨t.calls, t.sleeps,
    match t.outcome with
    | Settled.value (ProviderResult.ok data) => Settled.value data
    | Settled.value (ProviderResult.err e _) => Settled.thrown (JsError.error e)
    | Settled.thrown j => Settled.thrown j⟩

theorem backoffDelay_shift (d0 f maxD : ℚ) :
    ∀ j, backoffDelay d0 f maxD (j + 1) = backoffDelay (jsMin (d0 * f) maxD) f maxD j := by
  intro j
  induction j with
  | zero => rfl
  | succ k ih => rw [backoffDelay, ih, backoffDelay]

theorem backoffDelay_closed (d0 f maxD : ℚ) (hf : 1 ≤ f) (hd : d0 ≤ maxD) :
    ∀ j, backoffDelay d0 f maxD j = min (d0 * f ^ j) maxD := by
  intro j
  induction j with
  | zero => simp [backoffDelay, min_eq_left hd]
  | succ k ih =>
    rw [backoffDelay, jsMin_eq_min, ih]
    rcases le_or_lt (d0 * f ^ k) maxD with h | h
    · rw [min_eq_left h, mul_assoc, ← pow_succ]
    · have hd0 : 0 < d0 := by
        by_contra hle
        push_neg at hle
        have h1 : d0 * f ^ k ≤ d0 * 1 :=
          mul_le_mul_of_nonpos_left (one_le_pow₀ hf) hle
        rw [mul_one] at h1
        exact absurd (h1.trans hd) (not_le_of_lt h)
      have hm0 : (0 : ℚ) ≤ maxD := le_of_lt (lt_of_lt_of_le hd0 hd)
      rw [min_eq_right (le_of_lt h), min_eq_right, min_eq_right]
      · calc maxD ≤ d0 * f ^ k := le_of_lt h
          _ ≤ d0 * f ^ k * f := le_mul_of_one_le_right
              (le_of_lt (lt_of_le_of_lt hm0 h)) hf
          _ = d0 * f ^ (k + 1) := by rw [mul_assoc, ← pow_succ]
      · exact le_mul_of_one_le_right hm0 hf

/-- Full trace of `retryAux` on a function that throws on every call:
`remaining` invocations, the backoff schedule as sleeps, and the wrapped
final error naming `maxA` and the message of the last throw. -/
theorem retryAux_fail_trace (T : Type) (e : Nat → String) (maxA : Int) (f maxD : ℚ) :
    ∀ (remaining attempt : Nat) (delay : ℚ), 1 ≤ remaining →
      (attempt : Int) + remaining = maxA + 1 →
      retryAux (fun i => (FnResult.exn (e i) : FnResult T)) maxA f maxD remaining attempt delay =
        ⟨remaining,
         (List.range (remaining - 1)).map (fun j => backoffDelay delay f maxD j),
         Settled.thrown (JsError.error
           ("Max retry attempts (" ++ toString maxA ++ ") reached. Last error: "
             ++ e (attempt + (remaining - 1))))⟩ := by
  intro remaining
  induction remaining with
  | zero => intro attempt delay h1 _; exact absurd h1 (by omega)
  | succ k ih =>
    intro attempt delay _ hsum
    rcases Nat.eq_zero_or_pos k with hk | hk
    · subst hk
      have ha : (attempt : Int) = maxA := by push_cast at hsum; omega
      simp [retryAux, ha]
    · have ha : ¬ ((attempt : Int) = maxA) := by push_cast at hsum; omega
      have ihs := ih (attempt + 1) (jsMin (delay * f) maxD) hk
        (by push_cast at hsum ⊢; omega)
      simp only [retryAux, ha, if_false, ihs, RetryTrace.mk.injEq]
      refine ⟨trivial, ?_, ?_⟩
      · have hk1 : k + 1 - 1 = k := rfl
        rw [hk1, ← Nat.succ_pred_eq_of_pos hk, List.range_succ_eq_map]
        simp only [List.map_cons, List.map_map, backoffDelay]
        refine congrArg _ ?_
        refine List.map_congr_left ?_
        intro j _
        simp only [Function.comp_apply, Nat.succ_eq_add_one]
        exact (backoffDelay_shift delay f maxD j).symm
      · rw [show attempt + 1 + (k - 1) = attempt + (k + 1 - 1) from by omega]

/-- C3 — for every `maxAttempts n ≥ 1`, `retryWithBackoff` applied to a
function that throws on every call invokes the function exactly `n` times and
finally rejects with an error whose message names `n` and repeats the text of
the last error. -/
theorem retryWithBackoff_always_fails (n : Int) (e : Nat → String) (d0 maxD f : ℚ)
    (hn : 1 ≤ n) :
    (retryWithBackoff (fun i => (FnResult.exn (e i) : FnResult ChatResponse))
        ⟨n, d0, maxD, f⟩).calls = n.toNat ∧
      (retryWithBackoff (fun i => (FnResult.exn (e i) : FnResult ChatResponse))
          ⟨n, d0, maxD, f⟩).outcome =
        Settled.thrown (JsError.error
          ("Max retry attempts (" ++ toString n ++ ") reached. Last error: "
            ++ e n.toNat)) := by
  have h1 : 1 ≤ n.toNat := by omega
  have hsum : ((1 : Nat) : Int) + (n.toNat : Int) = n + 1 := by push_cast; omega
  have htr := retryAux_fail_trace ChatResponse e n f maxD n.toNat 1 d0 h1 hsum
  have hlast : 1 + (n.toNat - 1) = n.toNat := by omega
  rw [retryWithBackoff]
  rw [show (⟨n, d0, maxD, f⟩ : RetryOptions).maxAttempts = n from rfl,
    show (⟨n, d0, maxD, f⟩ : RetryOptions).factor = f from rfl,
    show (⟨n, d0, maxD, f⟩ : RetryOptions).maxDelay = maxD from rfl,
    show (⟨n, d0, maxD, f⟩ : RetryOptions).initialDelay = d0 from rfl,
    htr, hlast]
  exact ⟨rfl, rfl⟩

/-- Witness for C3 at `n = 2` with constant error text `"boom"`. -/
theorem retryWithBackoff_always_fails_witness :
    (retryWithBackoff (fun _ => (FnResult.exn "boom" : FnResult ChatResponse))
        ⟨2, 100, 5000, 2⟩).calls = (2 : Int).toNat ∧
      (retryWithBackoff (fun _ => (FnResult.exn "boom" : FnResult ChatResponse))
          ⟨2, 100, 5000, 2⟩).outcome =
        Settled.thrown (JsError.error
          ("Max retry attempts (" ++ toString (2 : Int) ++ ") reached. Last error: "
            ++ "boom")) :=
  retryWithBackoff_always_fails 2 (fun _ => "boom") 100 5000 2 (by decide)

/-- C7 (amended) — when `initialDelay ≤ maxDelay`, after failed attempt `i`
(1-indexed, `i < maxAttempts`) the driver sleeps exactly
`min(initialDelay * factor^(i-1), maxDelay)` before attempt `i+1`. -/
theorem retryWithBackoff_sleep_schedule (n : Int) (e : Nat → String) (d0 maxD f : ℚ)
    (hf : 1 < f) (hd : d0 ≤ maxD) (i : Nat) (hi1 : 1 ≤ i) (hin : (i : Int) < n) :
    (retryWithBackoff (fun j => (FnResult.exn (e j) : FnResult ChatResponse))
        ⟨n, d0, maxD, f⟩).sleeps[i - 1]? = some (min (d0 * f ^ (i - 1)) maxD) := by
  have h1 : 1 ≤ n.toNat := by omega
  have hsum : ((1 : Nat) : Int) + (n.toNat : Int) = n + 1 := by push_cast; omega
  have htr := retryAux_fail_trace ChatResponse e n f maxD n.toNat 1 d0 h1 hsum
  have hidx : i - 1 < n.toNat - 1 := by omega
  rw [retryWithBackoff]
  rw [show (⟨n, d0, maxD, f⟩ : RetryOptions).maxAttempts = n from rfl,
    show (⟨n, d0, maxD, f⟩ : RetryOptions).factor = f from rfl,
    show (⟨n, d0, maxD, f⟩ : RetryOptions).maxDelay = maxD from rfl,
    show (⟨n, d0, maxD, f⟩ : RetryOptions).initialDelay = d0 from rfl,
    htr]
  show ((List.range (n.toNat - 1)).map (fun j => backoffDelay d0 f maxD j))[i - 1]? = _
  rw [List.getElem?_map]
  simp only [List.getElem?_range, hidx, if_true]
  show some (backoffDelay d0 f maxD (i - 1)) = _
  rw [backoffDelay_closed d0 f maxD (le_of_lt hf) hd]

/-- Witness for the amended C7: `n = 3`, `d0 = 100 ≤ 5000 = maxD`, `f = 2`,
sleep after failed attempt 1. -/
theorem retryWithBackoff_sleep_schedule_witness :
    (retryWithBackoff (fun j => (FnResult.exn "x" : FnResult ChatResponse))
        ⟨3, 100, 5000, 2⟩).sleeps[1 - 1]? = some (min ((100 : ℚ) * 2 ^ (1 - 1)) 5000) :=
  retryWithBackoff_sleep_schedule 3 (fun _ => "x") 100 5000 2 (by norm_num)
    (by norm_num) 1 (by norm_num) (by norm_num)

/-- Counterexample to C7 as stated: with `initialDelay = 10000 > 5000 =
maxDelay` the sleep after failed attempt 1 is the uncapped `initialDelay`
(10000), not `min(initialDelay * factor^0, maxDelay) = 5000` — the source
only applies the `maxDelay` cap when stepping `delay`, never to the initial
value. -/
theorem retryWithBackoff_first_sleep_uncapped :
    (retryWithBackoff (fun _ => (FnResult.exn "x" : FnResult ChatResponse))
        ⟨2, 10000, 5000, 2⟩).sleeps[1 - 1]? ≠
      some (min ((10000 : ℚ) * 2 ^ (1 - 1)) 5000) := by
  have h : retryWithBackoff (fun _ => (FnResult.exn "x" : FnResult ChatResponse))
      ⟨2, 10000, 5000, 2⟩ =
      ⟨2, [10000],
        Settled.thrown (JsError.error ("Max retry attempts (2) reached. Last error: x"))⟩ := by
    decide
  rw [h]
  intro heq
  simp only [List.getElem?_cons_zero, Option.some.injEq] at heq
  rw [min_def] at heq
  norm_num at heq

/-- C10 — calling `retryWithBackoff` with `maxAttempts < 1` never runs the
loop body: `fn` is not invoked and the trailing `throw lastError` rejects
with the value `undefined` (not an `Error`). -/
theorem retryWithBackoff_nonpositive_attempts {T : Type} (maxA : Int) (hm : maxA < 1)
    (fn : Nat → FnResult T) (d0 maxD f : ℚ) :
    retryWithBackoff fn ⟨maxA, d0, maxD, f⟩ =
      ⟨0, [], Settled.thrown JsError.undef⟩ := by
  have h0 : maxA.toNat = 0 := Int.toNat_of_nonpos (by omega)
  rw [retryWithBackoff]
  rw [show (⟨maxA, d0, maxD, f⟩ : RetryOptions).maxAttempts = maxA from rfl]
  rw [h0]
  rfl

/-- Witness for C10 at `maxAttempts = 0`. -/
theorem retryWithBackoff_nonpositive_attempts_witness :
    retryWithBackoff (fun _ => (FnResult.ok 0 : FnResult Nat)) ⟨0, 100, 5000, 2⟩ =
      ⟨0, [], Settled.thrown JsError.undef⟩ :=
  retryWithBackoff_nonpositive_attempts 0 (by decide) (fun _ => FnResult.ok 0) 100 5000 2

/-- C1 — evaluation of `LLMService.chat` at the failing input: when every
breaker-protected call resolves with `{success:false, error:"boom",
retryable:true}`, the call is performed exactly once and the error is thrown
immediately — the retry budget of 3 is never used, because the driver only
retries thrown exceptions and a failed `ProviderResult` is a fulfillment. -/
theorem llm_chat_single_attempt_on_retryable_failure :
    (LLMService.chat (fun _ => ProviderResult.err "boom" true)).calls = 1 ∧
      (LLMService.chat (fun _ => ProviderResult.err "boom" true)).outcome =
        Settled.thrown (JsError.error "boom") := by
  decide

/-- `Map.get` on a JavaScript `Map` embedded as an association list: the
value at the first matching key. -/
def lookupKey {α : Type} (l : List (String × α)) (k : String) : Option α :=
  (l.find? (fun p => p.1 == k)).map (fun p => p.2)

/-- `Map.set`: bind `k` to `v`, shadowing any previous binding. -/
def setKey {α : Type} (l : List (String × α)) (k : String) (v : α) :
    List (String × α) :=
  (k, v) :: l.filter (fun p => !(p.1 == k))

/-- `Map.delete`: drop the binding of `k`. -/
def deleteKey {α : Type} (l : List (String × α)) (k : String) :
    List (String × α) :=
  l.filter (fun p => !(p.1 == k))

theorem lookupKey_setKey_self {α : Type} (l : List (String × α)) (k : String) (v : α) :
    lookupKey (setKey l k v) k = some v := by
  simp [lookupKey, setKey, List.find?]

theorem lookupKey_deleteKey_self {α : Type} (l : List (String × α)) (k : String) :
    lookupKey (deleteKey l k) k = none := by
  rw [lookupKey, Option.map_eq_none', List.find?_eq_none]
  intro p hp
  simpa using (List.mem_filter.mp hp).2

/-- The `PendingRequest` record of `request-coalescing.ts`; the shared
promise is identified by a serial number so that two callers holding the
same identifier observe the same eventual value or rejection. -/
structure PendingRequest : Type where
  promiseId : Nat
  timestamp : Nat
deriving DecidableEq, Repr

/-- State of a `RequestCoalescer`: the `pending` map plus the identifier the
next freshly created promise will get. -/
structure CoalescerState : Type where
  pending : List (String × PendingRequest)
  nextId : Nat
deriving DecidableEq, Repr

/-- What one caller of `execute` observes: which promise it was handed, and
whether this call invoked `fn` (created a new upstream request). -/
structure ExecResult : Type where
  promiseId : Nat
  invoked : Bool
deriving DecidableEq, Repr

/-- `RequestCoalescer.execute` of `request-coalescing.ts`: if a pending
entry exists for the serialized key and `Date.now() - timestamp < windowMs`,
its promise is returned without invoking `fn`; otherwise `fn` is invoked,
producing a fresh promise that is stored (with `timestamp = now`) under the
key.  The JavaScript body runs without interleaving up to the first await,
so invoke-then-set is one atomic step here. -/
def RequestCoalescer.execute (windowMs : Nat) (s : CoalescerState) (key : String)
    (now : Nat) : ExecResult × CoalescerState :=
  match lookupKey s.pending key with
  | some e =>
    if now - e.timestamp < windowMs then
      (⟨e.promiseId, false⟩, s)
    else
      (⟨s.nextId, true⟩, ⟨setKey s.pending key ⟨s.nextId, now⟩, s.nextId + 1⟩)
  | none =>
    (⟨s.nextId, true⟩, ⟨setKey s.pending key ⟨s.nextId, now⟩, s.nextId + 1⟩)

/-- The `.finally` cleanup of `execute`: when the promise under `key`
settles, `this.pending.delete(keyStr)` runs. -/
def RequestCoalescer.settle (s : CoalescerState) (key : String) : CoalescerState :=
  ⟨deleteKey s.pending key, s.nextId⟩

/-- A sequence of callers of `execute` on the same key, one per arrival
time, in arrival order. -/
def RequestCoalescer.executeMany (windowMs : Nat) (s : CoalescerState) (key : String) :
    List Nat → List ExecResult × CoalescerState
  | [] => ([], s)
  | t :: ts =>
    let rs1 := RequestCoalescer.execute windowMs s key t
    let rs2 := RequestCoalescer.executeMany windowMs rs1.2 key ts
    (rs1.1 :: rs2.1, rs2.2)

theorem execute_hit (windowMs : Nat) (s : CoalescerState) (key : String) (now : Nat)
    (e : PendingRequest) (h : lookupKey s.pending key = some e)
    (hw : now - e.timestamp < windowMs) :
    RequestCoalescer.execute windowMs s key now = (⟨e.promiseId, false⟩, s) := by
  simp [RequestCoalescer.execute, h, hw]

theorem executeMany_hits (windowMs : Nat) (key : String) (e : PendingRequest) :
    ∀ (ts : List Nat) (s : CoalescerState), lookupKey s.pending key = some e →
      (∀ t' ∈ ts, t' - e.timestamp < windowMs) →
      RequestCoalescer.executeMany windowMs s key ts =
        (ts.map (fun _ => ⟨e.promiseId, false⟩), s) := by
  intro ts
  induction ts with
  | nil => intro s _ _; rfl
  | cons t ts ih =>
    intro s h hw
    rw [RequestCoalescer.executeMany]
    rw [execute_hit windowMs s key t e h (hw t (by simp))]
    rw [ih s h (fun t' ht' => hw t' (by simp [ht']))]
    rfl

/-- C2 — `k` callers of `execute` on one key, the first at time `t` with no
pending entry, the rest arriving while `now - t < windowMs`: `fn` runs
exactly once (only the first caller invokes), every caller is handed the
same promise (`s0.nextId`), and once that promise settles its `pending`
entry is gone. -/
theorem coalescer_single_invocation (windowMs : Nat) (key : String)
    (s0 : CoalescerState) (t : Nat) (ts : List Nat)
    (h0 : lookupKey s0.pending key = none)
    (hts : ∀ t' ∈ ts, t' - t < windowMs) :
    ((RequestCoalescer.executeMany windowMs s0 key (t :: ts)).1.map ExecResult.invoked =
        true :: ts.map (fun _ => false)) ∧
      (∀ x ∈ (RequestCoalescer.executeMany windowMs s0 key (t :: ts)).1,
        x.promiseId = s0.nextId) ∧
      lookupKey (RequestCoalescer.settle
        (RequestCoalescer.executeMany windowMs s0 key (t :: ts)).2 key).pending key =
        none := by
  have hfirst : RequestCoalescer.execute windowMs s0 key t =
      (⟨s0.nextId, true⟩, ⟨setKey s0.pending key ⟨s0.nextId, t⟩, s0.nextId + 1⟩) := by
    simp [RequestCoalescer.execute, h0]
  have hlook : lookupKey (setKey s0.pending key (⟨s0.nextId, t⟩ : PendingRequest)) key =
      some ⟨s0.nextId, t⟩ := lookupKey_setKey_self ..
  have hrest := executeMany_hits windowMs key ⟨s0.nextId, t⟩ ts
    ⟨setKey s0.pending key ⟨s0.nextId, t⟩, s0.nextId + 1⟩ hlook hts
  rw [RequestCoalescer.executeMany, hfirst]
  dsimp only
  rw [hrest]
  refine ⟨by simp, ?_, ?_⟩
  · intro x hx
    rcases List.mem_cons.mp hx with hx | hx
    · rw [hx]
    · rcases List.mem_map.mp hx with ⟨_, _, hmap⟩
      rw [← hmap]
  · exact lookupKey_deleteKey_self ..

/-- Witness for C2: three callers at times 0, 10, 20 with a 100 ms window. -/
theorem coalescer_single_invocation_witness :
    ((RequestCoalescer.executeMany 100 ⟨[], 0⟩ "k" (0 :: [10, 20])).1.map
        ExecResult.invoked = true :: [10, 20].map (fun _ => false)) ∧
      (∀ x ∈ (RequestCoalescer.executeMany 100 ⟨[], 0⟩ "k" (0 :: [10, 20])).1,
        x.promiseId = (⟨[], 0⟩ : CoalescerState).nextId) ∧
      lookupKey (RequestCoalescer.settle
        (RequestCoalescer.executeMany 100 ⟨[], 0⟩ "k" (0 :: [10, 20])).2 "k").pending "k" =
        none :=
  coalescer_single_invocation 100 "k" ⟨[], 0⟩ 0 [10, 20] (by decide) (by decide)

theorem setKey_setKey {α : Type} (l : List (String × α)) (k : String) (v v' : α) :
    setKey (setKey l k v) k v' = setKey l k v' := by
  simp [setKey, List.filter_filter]

theorem mem_setKey {α : Type} {l : List (String × α)} {k : String} {v : α}
    {p : String × α} (hp : p ∈ setKey l k v) : p = (k, v) ∨ p ∈ l := by
  rcases List.mem_cons.mp hp with h | h
  · exact Or.inl h
  · exact Or.inr (List.mem_filter.mp h).1

/-- The per-key `RateLimitEntry` of `rate-limit.ts`. -/
structure RateLimitEntry : Type where
  count : Nat
  resetTime : Nat
deriving DecidableEq, Repr

/-- The record returned by `RateLimiter.check`.  `remaining` is an `Int`:
the source computes `this.maxRequests - 1` and `this.maxRequests -
entry.count` with JavaScript numbers, which go negative when
`maxRequests = 0`. -/
structure RateCheckResult : Type where
  allowed : Bool
  remaining : Int
  resetTime : Nat
deriving DecidableEq, Repr

/-- The `RateLimiter` of `rate-limit.ts`: a fixed-window counter per key. -/
structure RateLimiter : Type where
  requests : List (String × RateLimitEntry)
  maxRequests : Nat
  windowMs : Nat
deriving DecidableEq, Repr

/-- `RateLimiter.check` of `rate-limit.ts`, with `Date.now()` passed in:
no entry or an expired one starts a fresh window with `count = 1`; a full
window (`count >= maxRequests`) is rejected leaving the entry untouched;
otherwise the count is incremented. -/
def RateLimiter.check (rl : RateLimiter) (key : String) (now : Nat) :
    RateCheckResult × RateLimiter :=
  match lookupKey rl.requests key with
  | some entry =>
    if now > entry.resetTime then
      (⟨true, (rl.maxRequests : Int) - 1, now + rl.windowMs⟩,
       { rl with requests := setKey rl.requests key ⟨1, now + rl.windowMs⟩ })
    else if entry.count ≥ rl.maxRequests then
      (⟨false, 0, entry.resetTime⟩, rl)
    else
      (⟨true, (rl.maxRequests : Int) - (entry.count + 1), entry.resetTime⟩,
       { rl with requests := setKey rl.requests key ⟨entry.count + 1, entry.resetTime⟩ })
  | none =>
    (⟨true, (rl.maxRequests : Int) - 1, now + rl.windowMs⟩,
     { rl with requests := setKey rl.requests key ⟨1, now + rl.windowMs⟩ })

/-- A sequence of `check` calls on the same key, one per time, in order. -/
def RateLimiter.checkMany (rl : RateLimiter) (key : String) :
    List Nat → List RateCheckResult × RateLimiter
  | [] => ([], rl)
  | t :: ts =>
    let r1 := RateLimiter.check rl key t
    let r2 := RateLimiter.checkMany r1.2 key ts
    (r1.1 :: r2.1, r2.2)

theorem check_increment (rl : RateLimiter) (key : String) (now : Nat)
    (c R : Nat) (h : lookupKey rl.requests key = some ⟨c, R⟩)
    (hnow : ¬ now > R) (hc : c < rl.maxRequests) :
    rl.check key now =
      (⟨true, (rl.maxRequests : Int) - (c + 1), R⟩,
       { rl with requests := setKey rl.requests key ⟨c + 1, R⟩ }) := by
  simp [RateLimiter.check, h, hnow, Nat.not_le.mpr hc]

/-- Inside one window, a run of checks whose counts stay below the limit is
fully allowed and just accumulates the count. -/
theorem checkMany_in_window (key : String) (R : Nat) :
    ∀ (ts : List Nat) (rl : RateLimiter) (c : Nat),
      lookupKey rl.requests key = some ⟨c, R⟩ →
      (∀ u ∈ ts, ¬ u > R) →
      c + ts.length ≤ rl.maxRequests →
      (∀ r ∈ (RateLimiter.checkMany rl key ts).1, r.allowed = true) ∧
        lookupKey (RateLimiter.checkMany rl key ts).2.requests key =
          some ⟨c + ts.length, R⟩ ∧
        (RateLimiter.checkMany rl key ts).2.maxRequests = rl.maxRequests ∧
        (RateLimiter.checkMany rl key ts).2.windowMs = rl.windowMs := by
  intro ts
  induction ts with
  | nil =>
    intro rl c h _ _
    exact ⟨fun r hr => absurd hr (List.not_mem_nil r), by simpa using h, rfl, rfl⟩
  | cons t ts ih =>
    intro rl c h hu hle
    have hc : c < rl.maxRequests := by
      have := hle
      simp [List.length_cons] at this
      omega
    have hstep := check_increment rl key t c R h (hu t (by simp))
    rw [RateLimiter.checkMany]
    rw [hstep hc]
    have hlook : lookupKey (setKey rl.requests key (⟨c + 1, R⟩ : RateLimitEntry)) key =
        some ⟨c + 1, R⟩ := lookupKey_setKey_self ..
    have hrec := ih { rl with requests := setKey rl.requests key ⟨c + 1, R⟩ } (c + 1)
      hlook (fun u hu' => hu u (by simp [hu']))
      (by simp at hle ⊢; omega)
    refine ⟨?_, ?_, hrec.2.2.1, hrec.2.2.2⟩
    · intro r hr
      rcases List.mem_cons.mp hr with hr | hr
      · rw [hr]
      · exact hrec.1 r hr
    · rw [hrec.2.1]
      refine congrArg _ ?_
      simp [RateLimitEntry.mk.injEq]
      omega

/-- C4 (amended) — for every configuration with `maxRequests ≥ 1`: starting
from a state with no entry for the key, the first check (at `t0`) and the
`maxRequests - 1` further checks inside the window are all allowed; the next
check within the window is rejected with `remaining = 0` and the unchanged
`resetTime = t0 + windowMs`; and once `now` exceeds that `resetTime`, the
next check is allowed with `remaining = maxRequests - 1` and a fresh
`resetTime = now + windowMs`. -/
theorem rate_limiter_window_behavior (rl0 : RateLimiter) (key : String)
    (t0 t t' : Nat) (ts : List Nat)
    (h0 : lookupKey rl0.requests key = none)
    (hmax : 1 ≤ rl0.maxRequests)
    (hlen : ts.length = rl0.maxRequests - 1)
    (hts : ∀ u ∈ ts, ¬ u > t0 + rl0.windowMs)
    (ht : ¬ t > t0 + rl0.windowMs)
    (ht' : t' > t0 + rl0.windowMs) :
    (rl0.check key t0).1.allowed = true ∧
      (∀ r ∈ (RateLimiter.checkMany (rl0.check key t0).2 key ts).1,
        r.allowed = true) ∧
      ((RateLimiter.checkMany (rl0.check key t0).2 key ts).2.check key t).1 =
        ⟨false, 0, t0 + rl0.windowMs⟩ ∧
      ((((RateLimiter.checkMany (rl0.check key t0).2 key ts).2.check key t).2).check
          key t').1 =
        ⟨true, (rl0.maxRequests : Int) - 1, t' + rl0.windowMs⟩ := by
  have hfresh : rl0.check key t0 =
      (⟨true, (rl0.maxRequests : Int) - 1, t0 + rl0.windowMs⟩,
       { rl0 with requests := setKey rl0.requests key ⟨1, t0 + rl0.windowMs⟩ }) := by
    simp [RateLimiter.check, h0]
  rw [hfresh]
  dsimp only
  have hlook : lookupKey (setKey rl0.requests key
      (⟨1, t0 + rl0.windowMs⟩ : RateLimitEntry)) key = some ⟨1, t0 + rl0.windowMs⟩ :=
    lookupKey_setKey_self ..
  have hrun := checkMany_in_window key (t0 + rl0.windowMs) ts
    { rl0 with requests := setKey rl0.requests key ⟨1, t0 + rl0.windowMs⟩ } 1
    hlook hts (by simp [hlen]; omega)
  set s2 := (RateLimiter.checkMany
    { rl0 with requests := setKey rl0.requests key ⟨1, t0 + rl0.windowMs⟩ } key ts).2 with hs2
  have hcount : 1 + ts.length = rl0.maxRequests := by omega
  have hlook2 : lookupKey s2.requests key =
      some ⟨rl0.maxRequests, t0 + rl0.windowMs⟩ := by
    rw [hrun.2.1, hcount]
  have hmax2 : s2.maxRequests = rl0.maxRequests := hrun.2.2.1
  have hwin2 : s2.windowMs = rl0.windowMs := hrun.2.2.2
  have hblocked : s2.check key t = (⟨false, 0, t0 + rl0.windowMs⟩, s2) := by
    simp [RateLimiter.check, hlook2, ht, hmax2]
  refine ⟨rfl, hrun.1, ?_, ?_⟩
  · rw [hblocked]
  · rw [hblocked]
    dsimp only
    simp [RateLimiter.check, hlook2, ht', hmax2, hwin2]

/-- Witness for the amended C4: `maxRequests = 2`, `windowMs = 100`, checks
at times 0 and 10 fill the window; the check at 50 is rejected; the check at
101 starts a fresh window. -/
theorem rate_limiter_window_behavior_witness :
    ((⟨[], 2, 100⟩ : RateLimiter).check "k" 0).1.allowed = true ∧
      (∀ r ∈ (RateLimiter.checkMany ((⟨[], 2, 100⟩ : RateLimiter).check "k" 0).2
          "k" [10]).1, r.allowed = true) ∧
      ((RateLimiter.checkMany ((⟨[], 2, 100⟩ : RateLimiter).check "k" 0).2
          "k" [10]).2.check "k" 50).1 = ⟨false, 0, 0 + (100 : Nat)⟩ ∧
      ((((RateLimiter.checkMany ((⟨[], 2, 100⟩ : RateLimiter).check "k" 0).2
          "k" [10]).2.check "k" 50).2).check "k" 101).1 =
        ⟨true, ((2 : Nat) : Int) - 1, 101 + (100 : Nat)⟩ :=
  rate_limiter_window_behavior ⟨[], 2, 100⟩ "k" 0 50 101 [10] (by decide)
    (by decide) (by decide) (by decide) (by decide) (by decide)

/-- Counterexample to C4 as stated: with `maxRequests = 0` the premise
"after `maxRequests` allowed checks" is satisfied by the fresh limiter (zero
allowed checks have happened), yet the next check is allowed with
`remaining = -1` rather than rejected with `allowed = false, remaining = 0`
— the first check of a window is always admitted (compare C9). -/
theorem rate_limiter_zero_limit_first_check_allowed :
    ((⟨[], 0, 1000⟩ : RateLimiter).check "k" 5).1.allowed ≠ false ∧
      ((⟨[], 0, 1000⟩ : RateLimiter).check "k" 5).1.remaining = -1 := by
  decide

/-- C9 — the stored count never exceeds `max(maxRequests, 1)`: `check`
increments only below the limit, and the first check of a fresh or expired
window stores `count = 1` and is allowed — including when `maxRequests = 0`,
so a zero limit does not block the first request of a window. -/
theorem rate_limiter_count_invariant (rl : RateLimiter) (key : String) (now : Nat)
    (hinv : ∀ p ∈ rl.requests, p.2.count ≤ max rl.maxRequests 1) :
    (∀ p ∈ (rl.check key now).2.requests, p.2.count ≤ max rl.maxRequests 1) ∧
      (lookupKey rl.requests key = none →
        (rl.check key now).1.allowed = true ∧
          lookupKey (rl.check key now).2.requests key =
            some ⟨1, now + rl.windowMs⟩) ∧
      (∀ e, lookupKey rl.requests key = some e → now > e.resetTime →
        (rl.check key now).1.allowed = true ∧
          lookupKey (rl.check key now).2.requests key =
            some ⟨1, now + rl.windowMs⟩) := by
  refine ⟨?_, ?_, ?_⟩
  · intro p hp
    rw [RateLimiter.check] at hp
    rcases hcase : lookupKey rl.requests key with _ | entry
    · rw [hcase] at hp
      dsimp only at hp
      rcases mem_setKey hp with h | h
      · rw [h]; exact le_max_right ..
      · exact hinv p h
    · rw [hcase] at hp
      dsimp only at hp
      by_cases hnow : now > entry.resetTime
      · rw [if_pos hnow] at hp
        rcases mem_setKey hp with h | h
        · rw [h]; exact le_max_right ..
        · exact hinv p h
      · rw [if_neg hnow] at hp
        by_cases hfull : entry.count ≥ rl.maxRequests
        · rw [if_pos hfull] at hp
          exact hinv p hp
        · rw [if_neg hfull] at hp
          rcases mem_setKey hp with h | h
          · rw [h]
            dsimp only
            have : entry.count < rl.maxRequests := Nat.lt_of_not_le hfull
            exact le_trans (by omega) (le_max_left ..)
          · exact hinv p h
  · intro hnone
    simp [RateLimiter.check, hnone, lookupKey_setKey_self]
  · intro e hsome hexp
    simp [RateLimiter.check, hsome, hexp, lookupKey_setKey_self]

/-- Witness for C9 with `maxRequests = 0` and an expired entry: the next
check is allowed and resets the count to 1. -/
theorem rate_limiter_count_invariant_witness :
    (∀ p ∈ ((⟨[("k", ⟨1, 10⟩)], 0, 100⟩ : RateLimiter).check "k" 11).2.requests,
        p.2.count ≤ max (0 : Nat) 1) ∧
      (lookupKey (⟨[("k", ⟨1, 10⟩)], 0, 100⟩ : RateLimiter).requests "k" = none →
        ((⟨[("k", ⟨1, 10⟩)], 0, 100⟩ : RateLimiter).check "k" 11).1.allowed = true ∧
          lookupKey ((⟨[("k", ⟨1, 10⟩)], 0, 100⟩ : RateLimiter).check "k"
            11).2.requests "k" = some ⟨1, 11 + 100⟩) ∧
      (∀ e, lookupKey (⟨[("k", ⟨1, 10⟩)], 0, 100⟩ : RateLimiter).requests "k" =
          some e → 11 > e.resetTime →
        ((⟨[("k", ⟨1, 10⟩)], 0, 100⟩ : RateLimiter).check "k" 11).1.allowed = true ∧
          lookupKey ((⟨[("k", ⟨1, 10⟩)], 0, 100⟩ : RateLimiter).check "k"
            11).2.requests "k" = some ⟨1, 11 + 100⟩) := by
  have h := rate_limiter_count_invariant ⟨[("k", ⟨1, 10⟩)], 0, 100⟩ "k" 11 (by decide)
  exact ⟨h.1, h.2.1, fun e he hgt => h.2.2 e he hgt⟩

/-- The `CacheEntry` of `idempotency.ts`; the stored response is opaque
(`unknown` in the source), so the type is a parameter. -/
structure CacheEntry (V : Type) : Type where
  response : V
  timestamp : Nat
deriving DecidableEq, Repr

/-- The `IdempotencyCache` of `idempotency.ts`. -/
structure IdempotencyCache (V : Type) : Type where
  cache : List (String × CacheEntry V)
  ttl : Nat
deriving DecidableEq, Repr

/-- `IdempotencyCache.get` with `Date.now()` passed in: a missing key reads
absent; an entry older than `ttl` is lazily deleted and reads absent;
otherwise the stored response is returned. -/
def IdempotencyCache.get {V : Type} (c : IdempotencyCache V) (key : String)
    (now : Nat) : Option V × IdempotencyCache V :=
  match lookupKey c.cache key with
  | none => (none, c)
  | some entry =>
    if now - entry.timestamp > c.ttl then
      (none, ⟨deleteKey c.cache key, c.ttl⟩)
    else
      (some entry.response, c)

/-- `IdempotencyCache.set`: overwrite with `timestamp = Date.now()`. -/
def IdempotencyCache.set {V : Type} (c : IdempotencyCache V) (key : String) (v : V)
    (now : Nat) : IdempotencyCache V :=
  ⟨setKey c.cache key ⟨v, now⟩, c.ttl⟩

/-- C5 — `get(k)` performed `t` ms after `set(k, v)` returns `v` iff
`t ≤ TTL`; past the TTL the entry is lazily deleted (no longer found in the
cache) and the read is absent. -/
theorem idempotency_get_after_set {V : Type} (c : IdempotencyCache V) (k : String)
    (v : V) (s t : Nat) :
    ((c.set k v s).get k (s + t)).1 = (if t ≤ c.ttl then some v else none) ∧
      lookupKey ((c.set k v s).get k (s + t)).2.cache k =
        (if t ≤ c.ttl then some ⟨v, s⟩ else none) := by
  have hl : lookupKey (setKey c.cache k (⟨v, s⟩ : CacheEntry V)) k = some ⟨v, s⟩ :=
    lookupKey_setKey_self ..
  rcases le_or_lt t c.ttl with h | h
  · have hcond : ¬ (s + t - s > c.ttl) := by omega
    simp only [IdempotencyCache.get, IdempotencyCache.set, hl]
    rw [if_neg hcond]
    simp [h, lookupKey_setKey_self]
  · have hcond : s + t - s > c.ttl := by omega
    simp only [IdempotencyCache.get, IdempotencyCache.set, hl]
    rw [if_pos hcond]
    simp [Nat.not_le.mpr h, lookupKey_deleteKey_self]

example :
    (((⟨[], 1000⟩ : IdempotencyCache Nat).set "k" 7 5).get "k" (5 + 1000)).1 =
      some 7 := by decide

example :
    (((⟨[], 1000⟩ : IdempotencyCache Nat).set "k" 7 5).get "k" (5 + 1001)).1 =
      none := by decide

/-- Modelled from the spec: breaker states of §4.3.  The circuit breaker
itself is the `opossum` npm dependency, not part of this repository; only
its configuration (`createCircuitBreaker` in the source, with the fallback
value) is repository code. -/
inductive BreakerState : Type where
  | closed : BreakerState
  | opened : BreakerState
  | halfOpen : BreakerState
deriving DecidableEq, Repr

/-- Modelled from the spec: per-provider breaker state — `state`,
`openedAt`, and the configured `resetTimeout`. -/
structure Breaker : Type where
  state : BreakerState
  openedAt : Nat
  resetTimeout : Nat
deriving DecidableEq, Repr

/-- The fallback configured by `createCircuitBreaker` in the source:
`{success: false, error: new Error('Circuit breaker is OPEN'),
retryable: false}`. -/
def breakerFallback : ProviderResult :=
  ProviderResult.err "Circuit breaker is OPEN" false

/-- Modelled from the spec: the state in which a fire at time `now` is
dispatched — an Open breaker whose `resetTimeout` has elapsed since
`openedAt` transitions to HalfOpen first (§4.3 "After `resetTimeout`
milliseconds elapse since `openedAt`, the next fire transitions to
HalfOpen"). -/
def Breaker.fireState (b : Breaker) (now : Nat) : BreakerState :=
  if b.state = BreakerState.opened ∧ b.openedAt + b.resetTimeout ≤ now then
    BreakerState.halfOpen
  else b.state

/-- Modelled from the spec: one `fire` of §4.3, returning the result,
whether the wrapped `provider.chat` ran, and the next breaker state.  While
dispatched Open, the fallback resolves immediately without invoking the
wrapped function; in HalfOpen the single probe decides the next state; in
Closed the call passes through (the rolling error statistics and the
Closed→Open threshold transition are not needed by any claim and are left
out of the model). -/
def Breaker.fire (b : Breaker) (now : Nat) (chat : Unit → ProviderResult) :
    ProviderResult × Bool × Breaker :=
  match b.fireState now with
  | BreakerState.opened => (breakerFallback, false, b)
  | BreakerState.halfOpen =>
    match chat () with
    | ProviderResult.ok d =>
      (ProviderResult.ok d, true, ⟨BreakerState.closed, b.openedAt, b.resetTimeout⟩)
    | ProviderResult.err e r =>
      (ProviderResult.err e r, true, ⟨BreakerState.opened, now, b.resetTimeout⟩)
  | BreakerState.closed => (chat (), true, b)

/-- C6 — while the breaker is Open and `resetTimeout` has not yet elapsed,
every fire resolves immediately with the fallback
`{success:false, error:"Circuit breaker is OPEN", retryable:false}`, the
wrapped `provider.chat` is not invoked, and the breaker is unchanged. -/
theorem breaker_open_fallback (b : Breaker) (now : Nat)
    (chat : Unit → ProviderResult) (hs : b.state = BreakerState.opened)
    (ht : now < b.openedAt + b.resetTimeout) :
    b.fire now chat =
      (ProviderResult.err "Circuit breaker is OPEN" false, false, b) := by
  have hd : b.fireState now = BreakerState.opened := by
    rw [Breaker.fireState, if_neg, hs]
    intro hc
    exact absurd hc.2 (by omega)
  rw [Breaker.fire, hd]
  rfl

/-- Witness for C6: an Open breaker 50 s into a 60 s `resetTimeout`. -/
theorem breaker_open_fallback_witness :
    (⟨BreakerState.opened, 100, 60000⟩ : Breaker).fire 50000
        (fun _ => ProviderResult.err "upstream" true) =
      (ProviderResult.err "Circuit breaker is OPEN" false, false,
        ⟨BreakerState.opened, 100, 60000⟩) :=
  breaker_open_fallback ⟨BreakerState.opened, 100, 60000⟩ 50000
    (fun _ => ProviderResult.err "upstream" true) (by decide) (by decide)

/-- The request mapping performed by `AnthropicProvider.chat` in
`anthropic.ts`: `find(m => m.role === 'system')` supplies the `system`
directive, `filter(m => m.role !== 'system')` the forwarded `messages`, and
`request.maxTokens ?? 4096` the `max_tokens` budget. -/
structure AnthropicParams : Type where
  system : Option String
  messages : List Message
  max_tokens : Nat
deriving DecidableEq, Repr

def AnthropicProvider.chatParams (req : ChatRequest) : AnthropicParams :=
  { system := (req.messages.find? (fun m => m.role == Role.system)).map Message.content
    messages := req.messages.filter (fun m => !(m.role == Role.system))
    max_tokens := req.maxTokens.getD 4096 }

/-- The claim's reading of the message rewrite, stated in the claim's own
words: only the first `role=system` message is lifted out and all remaining
messages — later system messages included — are forwarded. -/
def liftFirstSystem (msgs : List Message) : List Message :=
  msgs.eraseP (fun m => m.role == Role.system)

theorem find?_first_system :
    ∀ (pre : List Message) (m : Message) (post : List Message),
      (∀ x ∈ pre, x.role ≠ Role.system) → m.role = Role.system →
      (pre ++ m :: post).find? (fun x => x.role == Role.system) = some m := by
  intro pre
  induction pre with
  | nil =>
    intro m post _ hm
    simp [List.find?, hm]
  | cons a pre ih =>
    intro m post hpre hm
    have ha : ¬ (a.role == Role.system) = true := by
      simp only [beq_iff_eq]
      exact hpre a (by simp)
    simp only [List.cons_append, List.find?]
    rw [Bool.of_not_eq_true ha]
    exact ih m post (fun x hx => hpre x (by simp [hx])) hm

/-- C8 (amended) — the Anthropic adapter lifts the content of the first
`role=system` message out as the system directive (absent when there is
none), removes every `role=system` message from the forwarded list, forwards
the non-system messages preserving their order, and defaults `max_tokens` to
4096 exactly when the request leaves `maxTokens` unset. -/
theorem anthropic_adapter_mapping (req : ChatRequest) :
    List.Sublist (AnthropicProvider.chatParams req).messages req.messages ∧
      (∀ m ∈ (AnthropicProvider.chatParams req).messages, m.role ≠ Role.system) ∧
      (∀ m ∈ req.messages, m.role ≠ Role.system →
        m ∈ (AnthropicProvider.chatParams req).messages) ∧
      (∀ (pre : List Message) (m : Message) (post : List Message),
        req.messages = pre ++ m :: post → (∀ x ∈ pre, x.role ≠ Role.system) →
        m.role = Role.system →
        (AnthropicProvider.chatParams req).system = some m.content) ∧
      ((∀ m ∈ req.messages, m.role ≠ Role.system) →
        (AnthropicProvider.chatParams req).system = none) ∧
      (req.maxTokens = none →
        (AnthropicProvider.chatParams req).max_tokens = 4096) ∧
      (∀ kk, req.maxTokens = some kk →
        (AnthropicProvider.chatParams req).max_tokens = kk) := by
  refine ⟨?_, ?_, ?_, ?_, ?_, ?_, ?_⟩
  · exact List.filter_sublist req.messages
  · intro m hm
    have := (List.mem_filter.mp hm).2
    simpa using this
  · intro m hm hrole
    exact List.mem_filter.mpr ⟨hm, by simpa using hrole⟩
  · intro pre m post heq hpre hm
    show ((req.messages.find? (fun x => x.role == Role.system)).map Message.content) = _
    rw [heq, find?_first_system pre m post hpre hm]
    rfl
  · intro hall
    show ((req.messages.find? (fun x => x.role == Role.system)).map Message.content) = _
    rw [List.find?_eq_none.mpr (fun x hx => by simpa using hall x hx)]
    rfl
  · intro hnone
    show req.maxTokens.getD 4096 = 4096
    rw [hnone]
    rfl
  · intro kk hsome
    show req.maxTokens.getD 4096 = kk
    rw [hsome]
    rfl

/-- Witness for the amended C8 at a request with two system messages and no
`maxTokens`. -/
theorem anthropic_adapter_mapping_witness :
    ((AnthropicProvider.chatParams
        ⟨"claude-3", [⟨Role.system, "a"⟩, ⟨Role.user, "b"⟩, ⟨Role.system, "c"⟩],
          none, none, none⟩).system = some "a") ∧
      ((AnthropicProvider.chatParams
        ⟨"claude-3", [⟨Role.system, "a"⟩, ⟨Role.user, "b"⟩, ⟨Role.system, "c"⟩],
          none, none, none⟩).max_tokens = 4096) ∧
      (∀ m ∈ (AnthropicProvider.chatParams
        ⟨"claude-3", [⟨Role.system, "a"⟩, ⟨Role.user, "b"⟩, ⟨Role.system, "c"⟩],
          none, none, none⟩).messages, m.role ≠ Role.system) :=
  have h := anthropic_adapter_mapping
    ⟨"claude-3", [⟨Role.system, "a"⟩, ⟨Role.user, "b"⟩, ⟨Role.system, "c"⟩],
      none, none, none⟩
  ⟨h.2.2.2.1 [] ⟨Role.system, "a"⟩ [⟨Role.user, "b"⟩, ⟨Role.system, "c"⟩]
      rfl (fun x hx => absurd hx (List.not_mem_nil x)) rfl,
    h.2.2.2.2.2.1 rfl, h.2.1⟩

/-- Counterexample to C8 as stated: on `[system "a", user "b", system "c"]`
the adapter forwards only `[user "b"]` — the later system message is
filtered out as well — whereas lifting out just the first system message
would forward `[user "b", system "c"]`. -/
theorem anthropic_drops_later_system_messages :
    (AnthropicProvider.chatParams
        ⟨"claude-3", [⟨Role.system, "a"⟩, ⟨Role.user, "b"⟩, ⟨Role.system, "c"⟩],
          none, none, none⟩).messages ≠
      liftFirstSystem [⟨Role.system, "a"⟩, ⟨Role.user, "b"⟩, ⟨Role.system, "c"⟩] := by
  decide
